import Mathlib

/-!
Shallow embedding of the computational core of src/main.py (an investment
portfolio rebalancing helper) and proofs about it.

Modelling conventions:
* Python numbers are modelled as exact rationals.
* Python exceptions become an error type, and every fallible function returns
  an Except value.
* Python dicts are association lists in insertion order with unique keys,
  matching the ordered-dict semantics the code relies on.
* check_goal_percentage mutates nothing; it is modelled with explicit state
  passing (it returns the unchanged input on success) so the absence of
  mutation is part of its statement.
* Chart construction and file access (plotly calls, open, json.load) are
  external collaborators; the model starts from the parsed JSON value.
-/

namespace InvestAssist

/-- Python exception outcomes that the code in main.py can produce. -/
inductive PyErr where
  | keyError (k : String)
  | valueError
  | typeError
  | attributeError
  | zeroDivisionError
  | goalPercentageError (total : ℚ)
deriving DecidableEq

/-- JSON values as produced by json.load, with numbers as exact rationals. -/
inductive JValue where
  | num (q : ℚ)
  | str (s : String)
  | bool (b : Bool)
  | null
  | arr (elems : List JValue)
  | obj (fields : List (String × JValue))

/-- Python isinstance(data, dict). -/
def JValue.isDict : JValue → Bool
  | .obj _ => true
  | _ => false

/-- Python subscript data[k] with a string key: dict lookup raising KeyError
when the key is missing, TypeError on any non-dict value. -/
def JValue.subscript : JValue → String → Except PyErr JValue
  | .obj fields, k =>
    match fields.lookup k with
    | some v => .ok v
    | none => .error (.keyError k)
  | _, _ => .error .typeError

/-- Python d.values(): the values of a dict in insertion order,
AttributeError on a non-dict value. -/
def JValue.vals : JValue → Except PyErr (List JValue)
  | .obj fields => .ok (fields.map (fun p => p.2))
  | _ => .error .attributeError

/-- Python d.items(): the key-value pairs of a dict in insertion order,
AttributeError on a non-dict value. -/
def JValue.items : JValue → Except PyErr (List (String × JValue))
  | .obj fields => .ok fields
  | _ => .error .attributeError

/-- Python sum() over a list of JSON values, accumulating left to right from
the given start value; TypeError at the first non-numeric element. -/
def sumNums : ℚ → List JValue → Except PyErr ℚ
  | acc, [] => .ok acc
  | acc, .num q :: rest => sumNums (acc + q) rest
  | _, _ :: _ => .error .typeError

/-- Embedding of check_goal_percentage (src/main.py lines 12-27): sums the
values under data["goal_percentage"] and raises GoalPercentageError (carrying
the offending total) unless the sum is exactly 100. -/
def check_goal_percentage (data : JValue) : Except PyErr JValue := do
  let gp ← data.subscript "goal_percentage"
  let vs ← gp.vals
  let goal_perc_total ← sumNums 0 vs
  if goal_perc_total ≠ 100 then
    .error (.goalPercentageError goal_perc_total)
  else
    .ok data

/-- Embedding of read_json (src/main.py lines 30-46) from the point after
json.load: takes the parsed JSON value, checks it is a dict (ValueError
otherwise), validates the goal percentages, and returns the data unchanged. -/
def read_json (data : JValue) : Except PyErr JValue :=
  if data.isDict then do
    let _ ← check_goal_percentage data
    .ok data
  else
    .error .valueError

/-- The dict comprehension of calculate_current_percentage (src/main.py lines
63-65), entry by entry: Python evaluates v / current_total * 100 for each
entry in order, raising ZeroDivisionError at the first numeric entry when
current_total is zero and TypeError at a non-numeric entry. -/
def percEntries (current_total : ℚ) :
    List (String × JValue) → Except PyErr (List (String × ℚ))
  | [] => .ok []
  | (k, .num v) :: rest =>
    if current_total = 0 then .error .zeroDivisionError
    else do
      let tail ← percEntries current_total rest
      .ok ((k, v / current_total * 100) :: tail)
  | (_, _) :: _ => .error .typeError

/-- Embedding of calculate_current_percentage (src/main.py lines 49-67):
TypeError unless the input is a dict, then each value under
data["current_value"] is mapped to value / total * 100. -/
def calculate_current_percentage (data : JValue) :
    Except PyErr (List (String × ℚ)) :=
  if data.isDict = false then .error .typeError
  else do
    let cv ← data.subscript "current_value"
    let entries ← cv.items
    let current_total ← sumNums 0 (entries.map (fun p => p.2))
    percEntries current_total entries

/-- Content of the action string returned by suggest_action: a buy message and
a sell message, each either a no-suggestion placeholder (none) or the chosen
asset with its exact difference (the f-string additionally rounds the
difference to two decimals for display, a formatting detail not modelled). -/
structure ActionSuggestion where
  buy : Option (String × ℚ)
  sell : Option (String × ℚ)
deriving DecidableEq

/-- The loop of suggest_action (src/main.py lines 271-288): for each asset of
current_percentages in order, look up its goal percentage (KeyError when the
asset is absent from goal_percentages) and record
difference = goal_percentage - current_percentage. -/
def computeDiffs :
    List (String × ℚ) → List (String × ℚ) → Except PyErr (List (String × ℚ))
  | [], _ => .ok []
  | (asset, current_percentage) :: rest, goal_percentages =>
    match goal_percentages.lookup asset with
    | none => .error (.keyError asset)
    | some goal_percentage => do
      let tail ← computeDiffs rest goal_percentages
      .ok ((asset, goal_percentage - current_percentage) :: tail)

/-- Embedding of suggest_action (src/main.py lines 257-308). Python list.sort
is stable, as is List.mergeSort; sorting ascending by the key -x[1] is sorting
by descending difference, and ascending by x[1] for the sell side. The
asset_suggestions string built inside the loop is dead code (it is not part of
the returned action) and is omitted. -/
def suggest_action (current_percentages goal_percentages : List (String × ℚ)) :
    Except PyErr ActionSuggestion := do
  let diffs ← computeDiffs current_percentages goal_percentages
  let overall_buy := diffs.filter (fun x => decide (0 < x.2))
  let overall_sell := diffs.filter (fun x => decide (x.2 < 0))
  let buySorted := overall_buy.mergeSort (fun a b => decide (b.2 ≤ a.2))
  let sellSorted := overall_sell.mergeSort (fun a b => decide (a.2 ≤ b.2))
  .ok ⟨buySorted.head?, sellSorted.head?⟩

/-- The assets named by the returned suggestion, buy side first. -/
def ActionSuggestion.names (s : ActionSuggestion) : List String :=
  (s.buy.map (fun p => p.1)).toList ++ (s.sell.map (fun p => p.1)).toList

/-- A JSON object all of whose values are numbers. -/
def numObj (l : List (String × ℚ)) : JValue :=
  .obj (l.map (fun p => (p.1, .num p.2)))

/-- A parsed input holding a numeric current_value mapping, as
calculate_current_percentage reads it. -/
def mkData (l : List (String × ℚ)) : JValue :=
  .obj [("current_value", numObj l)]

/-- A parsed input holding a numeric goal_percentage mapping, as
check_goal_percentage reads it. -/
def gData (l : List (String × ℚ)) : JValue :=
  .obj [("goal_percentage", numObj l)]

/-- Sum of the values of an association list. -/
def sumSnd (l : List (String × ℚ)) : ℚ := (l.map (fun p => p.2)).sum

/-- Property of a list and an element: p occurs in l, every earlier element has
a strictly smaller key and no element at all has a larger key. This is what
"the first encountered element attaining the maximum" means. -/
def firstMaxBy (key : String × ℚ → ℚ) (l : List (String × ℚ)) (p : String × ℚ) : Prop :=
  (∀ q ∈ l, key q ≤ key p) ∧
  ∃ pre post, l = pre ++ p :: post ∧ ∀ q ∈ pre, key q < key p

lemma sumSnd_nil : sumSnd [] = 0 := rfl

lemma sumSnd_cons (p : String × ℚ) (l : List (String × ℚ)) :
    sumSnd (p :: l) = p.2 + sumSnd l := by
  simp [sumSnd]

lemma sumNums_map (l : List (String × ℚ)) (acc : ℚ) :
    sumNums acc (l.map (fun p => JValue.num p.2)) = .ok (acc + sumSnd l) := by
  induction l generalizing acc with
  | nil => simp [sumNums, sumSnd]
  | cons p rest ih => simp [sumNums, ih, sumSnd_cons, add_assoc]

lemma check_gData (l : List (String × ℚ)) :
    check_goal_percentage (gData l) =
      if sumSnd l = 100 then .ok (gData l)
      else .error (.goalPercentageError (sumSnd l)) := by
  have h1 : (gData l).subscript "goal_percentage" = .ok (numObj l) := by
    simp [gData, JValue.subscript, List.lookup]
  have h2 : (numObj l).vals = .ok (l.map (fun p => JValue.num p.2)) := by
    simp [numObj, JValue.vals, List.map_map]
  unfold check_goal_percentage
  rw [h1]
  simp only [Bind.bind, Except.bind, h2, sumNums_map, zero_add]
  by_cases hc : sumSnd l = 100
  · simp [hc]
  · simp [hc]

lemma check_goal_percentage_ok_eq {data d : JValue}
    (h : check_goal_percentage data = .ok d) : d = data := by
  unfold check_goal_percentage at h
  cases h1 : data.subscript "goal_percentage" with
  | error e => rw [h1] at h; simp [Bind.bind, Except.bind] at h
  | ok gp =>
    rw [h1] at h
    simp only [Bind.bind, Except.bind] at h
    cases h2 : gp.vals with
    | error e => rw [h2] at h; simp at h
    | ok vs =>
      rw [h2] at h
      simp only at h
      cases h3 : sumNums 0 vs with
      | error e => rw [h3] at h; simp at h
      | ok total =>
        rw [h3] at h
        simp only at h
        split at h
        · simp at h
        · simp at h; exact h.symm

lemma percEntries_map (t : ℚ) (ht : t ≠ 0) (l : List (String × ℚ)) :
    percEntries t (l.map (fun p => (p.1, JValue.num p.2))) =
      .ok (l.map (fun p => (p.1, p.2 / t * 100))) := by
  induction l with
  | nil => simp [percEntries]
  | cons p rest ih => simp [percEntries, ht, ih, Bind.bind, Except.bind]

lemma percEntries_zero (l : List (String × ℚ)) (hne : l ≠ []) :
    percEntries 0 (l.map (fun p => (p.1, JValue.num p.2))) =
      .error .zeroDivisionError := by
  cases l with
  | nil => cases hne rfl
  | cons p rest => simp [percEntries]

lemma percEntries_keys {t : ℚ} :
    ∀ {entries : List (String × JValue)} {res : List (String × ℚ)},
      percEntries t entries = .ok res →
      res.map (fun p => p.1) = entries.map (fun p => p.1) := by
  intro entries
  induction entries with
  | nil =>
    intro res h
    simp [percEntries] at h
    simp [h.symm]
  | cons e rest ih =>
    intro res h
    obtain ⟨k, v⟩ := e
    cases v with
    | num q =>
      simp only [percEntries] at h
      by_cases ht : t = 0
      · simp [ht] at h
      · simp only [ht, if_false, Bind.bind, Except.bind] at h
        cases h' : percEntries t rest with
        | error e => rw [h'] at h; simp at h
        | ok tail =>
          rw [h'] at h
          simp only at h
          simp only [Except.ok.injEq] at h
          subst h
          simp [ih h']
    | str s => simp [percEntries] at h
    | bool b => simp [percEntries] at h
    | null => simp [percEntries] at h
    | arr elems => simp [percEntries] at h
    | obj fields => simp [percEntries] at h

lemma calc_not_dict (v : JValue) (hv : v.isDict = false) :
    calculate_current_percentage v = .error .typeError := by
  unfold calculate_current_percentage
  simp [hv]

lemma calc_mkData_pieces (l : List (String × ℚ)) :
    (mkData l).isDict = true ∧
    (mkData l).subscript "current_value" = .ok (numObj l) ∧
    (numObj l).items = .ok (l.map (fun p => (p.1, JValue.num p.2))) ∧
    (l.map (fun p => (p.1, JValue.num p.2))).map (fun p => p.2) =
      l.map (fun p => JValue.num p.2) := by
  refine ⟨rfl, ?_, rfl, ?_⟩
  · simp [mkData, JValue.subscript, List.lookup]
  · simp [List.map_map]

lemma calc_mkData (l : List (String × ℚ)) (h : sumSnd l ≠ 0) :
    calculate_current_percentage (mkData l) =
      .ok (l.map (fun p => (p.1, p.2 / sumSnd l * 100))) := by
  obtain ⟨h0, h1, h2, h3⟩ := calc_mkData_pieces l
  unfold calculate_current_percentage
  rw [h0, h1]
  simp only [Bind.bind, Except.bind, Bool.true_eq_false, if_false, h2, h3,
    sumNums_map, zero_add]
  exact percEntries_map _ h l

lemma calc_mkData_zero (l : List (String × ℚ)) (hne : l ≠ [])
    (h : sumSnd l = 0) :
    calculate_current_percentage (mkData l) = .error .zeroDivisionError := by
  obtain ⟨h0, h1, h2, h3⟩ := calc_mkData_pieces l
  unfold calculate_current_percentage
  rw [h0, h1]
  simp only [Bind.bind, Except.bind, Bool.true_eq_false, if_false, h2, h3,
    sumNums_map, zero_add, h]
  exact percEntries_zero l hne

lemma sumSnd_map_perc (t : ℚ) (l : List (String × ℚ)) :
    sumSnd (l.map (fun p => (p.1, p.2 / t * 100))) = sumSnd l / t * 100 := by
  induction l with
  | nil => simp [sumSnd]
  | cons p rest ih =>
    simp only [List.map_cons, sumSnd_cons, ih]
    ring

lemma computeDiffs_keys :
    ∀ {cur goal diffs : List (String × ℚ)},
      computeDiffs cur goal = .ok diffs →
      diffs.map (fun p => p.1) = cur.map (fun p => p.1) := by
  intro cur
  induction cur with
  | nil =>
    intro goal diffs h
    simp [computeDiffs] at h
    simp [h.symm]
  | cons e rest ih =>
    intro goal diffs h
    obtain ⟨asset, c⟩ := e
    simp only [computeDiffs] at h
    cases hl : goal.lookup asset with
    | none => rw [hl] at h; simp at h
    | some g =>
      rw [hl] at h
      simp only [Bind.bind, Except.bind] at h
      cases h' : computeDiffs rest goal with
      | error e => rw [h'] at h; simp at h
      | ok tail =>
        rw [h'] at h
        simp only [Except.ok.injEq] at h
        subst h
        simp [ih h']

lemma computeDiffs_missing :
    ∀ {cur goal : List (String × ℚ)},
      (∃ p ∈ cur, goal.lookup p.1 = none) →
      ∃ a, computeDiffs cur goal = .error (.keyError a) ∧ goal.lookup a = none := by
  intro cur
  induction cur with
  | nil => intro goal h; simp at h
  | cons e rest ih =>
    intro goal h
    obtain ⟨asset, c⟩ := e
    cases hl : goal.lookup asset with
    | none => exact ⟨asset, by simp [computeDiffs, hl], hl⟩
    | some g =>
      have hrest : ∃ p ∈ rest, goal.lookup p.1 = none := by
        obtain ⟨p, hp, hpl⟩ := h
        rcases List.mem_cons.mp hp with rfl | hp'
        · rw [hl] at hpl; cases hpl
        · exact ⟨p, hp', hpl⟩
      obtain ⟨a, ha, hal⟩ := ih hrest
      refine ⟨a, ?_, hal⟩
      simp [computeDiffs, hl, ha, Bind.bind, Except.bind]

lemma suggest_action_of_diffs {cur goal diffs : List (String × ℚ)}
    (h : computeDiffs cur goal = .ok diffs) :
    suggest_action cur goal =
      .ok ⟨((diffs.filter (fun x => decide (0 < x.2))).mergeSort
              (fun a b => decide (b.2 ≤ a.2))).head?,
           ((diffs.filter (fun x => decide (x.2 < 0))).mergeSort
              (fun a b => decide (a.2 ≤ b.2))).head?⟩ := by
  simp [suggest_action, h, Bind.bind, Except.bind]

lemma suggest_action_of_err {cur goal : List (String × ℚ)} {e : PyErr}
    (h : computeDiffs cur goal = .error e) :
    suggest_action cur goal = .error e := by
  simp [suggest_action, h, Bind.bind, Except.bind]

lemma head_mergeSort_none {α : Type} (le : α → α → Bool) (l : List α)
    (h : (l.mergeSort le).head? = none) : l = [] := by
  have hperm := List.mergeSort_perm l le
  cases hms : l.mergeSort le with
  | cons a rest => rw [hms] at h; simp at h
  | nil =>
    rw [hms] at hperm
    exact (hperm.symm).eq_nil

lemma head_mergeSort_firstMax (key : String × ℚ → ℚ) (l : List (String × ℚ))
    (hnd : l.Nodup) (p : String × ℚ)
    (h : (l.mergeSort (fun a b => decide (key b ≤ key a))).head? = some p) :
    firstMaxBy key l p := by
  set le : String × ℚ → String × ℚ → Bool :=
    fun a b => decide (key b ≤ key a) with hle
  have htrans : ∀ a b c, le a b → le b c → le a c := by
    intro a b c hab hbc
    simp only [hle, decide_eq_true_eq] at hab hbc ⊢
    exact le_trans hbc hab
  have htotal : ∀ a b, le a b || le b a := by
    intro a b
    simp only [hle, Bool.or_eq_true, decide_eq_true_eq]
    exact le_total (key b) (key a)
  have hperm : List.Perm (l.mergeSort le) l := List.mergeSort_perm l le
  have hsorted : (l.mergeSort le).Pairwise (le · ·) :=
    List.sorted_mergeSort htrans htotal l
  cases hms : l.mergeSort le with
  | nil => rw [hms] at h; simp at h
  | cons a rest =>
    rw [hms] at h
    simp only [List.head?_cons, Option.some.injEq] at h
    subst h
    rw [hms] at hsorted
    have hmem : a ∈ l := hperm.mem_iff.mp (by rw [hms]; exact List.mem_cons_self a rest)
    have hmax : ∀ q ∈ l, key q ≤ key a := by
      intro q hq
      have hq' : q ∈ l.mergeSort le := hperm.mem_iff.mpr hq
      rw [hms] at hq'
      rcases List.mem_cons.mp hq' with rfl | hq''
      · exact le_refl _
      · have := (List.pairwise_cons.mp hsorted).1 q hq''
        simpa [hle] using this
    refine ⟨hmax, ?_⟩
    obtain ⟨pre, post, hdecomp⟩ := List.append_of_mem hmem
    refine ⟨pre, post, hdecomp, ?_⟩
    intro q hq
    by_contra hlt
    push_neg at hlt
    have hqp : q ≠ a := by
      intro he
      subst he
      rw [hdecomp] at hnd
      rcases List.nodup_append.mp hnd with ⟨-, -, hdisj⟩
      exact hdisj hq (List.mem_cons_self q post)
    have hpair : List.Sublist [q, a] l := by
      rw [hdecomp]
      have hq1 : List.Sublist [q] pre := List.singleton_sublist.mpr hq
      have hq2 : List.Sublist [a] (a :: post) :=
        List.singleton_sublist.mpr (List.mem_cons_self a post)
      exact List.Sublist.append hq1 hq2
    have hle_qp : le q a := by
      simp only [hle, decide_eq_true_eq]
      exact hlt
    have hsub : List.Sublist [q, a] (l.mergeSort le) :=
      List.pair_sublist_mergeSort htrans htotal hle_qp hpair
    rw [hms] at hsub
    have hndms : (l.mergeSort le).Nodup := hperm.nodup_iff.mpr hnd
    rw [hms] at hndms
    cases hsub with
    | cons _ h' =>
      have hpr : a ∈ rest := h'.subset (by simp)
      exact (List.nodup_cons.mp hndms).1 hpr
    | cons₂ _ h' => exact hqp rfl

lemma sell_comparator_eq :
    (fun (a b : String × ℚ) => decide (a.2 ≤ b.2)) =
      (fun (a b : String × ℚ) => decide (-b.2 ≤ -a.2)) := by
  funext a b
  rw [decide_eq_decide]
  constructor <;> intro h <;> linarith

/-- Claim C5: check_goal_percentage raises the designated GoalPercentageError
if and only if the sum of the goal percentages differs from 100; when the sum
equals 100 it returns normally and the input data is unchanged. -/
theorem check_goal_percentage_error_iff (l : List (String × ℚ)) :
    ((∃ q, check_goal_percentage (gData l) = .error (.goalPercentageError q)) ↔
      sumSnd l ≠ 100) ∧
    (sumSnd l = 100 → check_goal_percentage (gData l) = .ok (gData l)) := by
  constructor
  · by_cases hc : sumSnd l = 100 <;> simp [check_gData, hc]
  · intro hc
    simp [check_gData, hc]

/-- Witness for C5 at a concrete input whose goal percentages sum to 100. -/
theorem check_goal_percentage_error_iff_witness :
    check_goal_percentage (gData [("A", 60), ("B", 40)]) =
      .ok (gData [("A", 60), ("B", 40)]) :=
  (check_goal_percentage_error_iff [("A", 60), ("B", 40)]).2 (by norm_num [sumSnd])

/-- Claim C7 counterexample: there is no nonzero tolerance below which
check_goal_percentage accepts every goal-percentage sum; the comparison with
100 is exact. -/
theorem check_goal_percentage_tolerance_cex :
    ¬ ∃ t : ℚ, 0 < t ∧ ∀ l : List (String × ℚ),
        |sumSnd l - 100| ≤ t → ∃ d, check_goal_percentage (gData l) = .ok d := by
  rintro ⟨t, ht, hall⟩
  have hs : sumSnd [("A", 100 + t)] = 100 + t := by simp [sumSnd]
  obtain ⟨d, hd⟩ := hall [("A", 100 + t)]
    (by rw [hs, add_sub_cancel_left, abs_of_pos ht])
  rw [check_gData, hs, if_neg (by intro h; linarith)] at hd
  cases hd

/-- Claim C7 amended: the validation has zero tolerance: for every positive
tolerance there is an input whose goal-percentage sum is within that tolerance
of 100 on which check_goal_percentage raises GoalPercentageError. -/
theorem check_goal_percentage_exact (t : ℚ) (ht : 0 < t) :
    ∃ l : List (String × ℚ), |sumSnd l - 100| ≤ t ∧
      check_goal_percentage (gData l) =
        .error (.goalPercentageError (sumSnd l)) := by
  refine ⟨[("A", 100 + t)], ?_, ?_⟩
  · have hs : sumSnd [("A", 100 + t)] = 100 + t := by simp [sumSnd]
    rw [hs, add_sub_cancel_left, abs_of_pos ht]
  · have hs : sumSnd [("A", 100 + t)] = 100 + t := by simp [sumSnd]
    rw [check_gData, hs, if_neg (by intro h; linarith)]

/-- Witness for C7 amended at tolerance 1. -/
theorem check_goal_percentage_exact_witness :
    ∃ l : List (String × ℚ), |sumSnd l - 100| ≤ 1 ∧
      check_goal_percentage (gData l) =
        .error (.goalPercentageError (sumSnd l)) :=
  check_goal_percentage_exact 1 (by norm_num)

/-- Claim C8: read_json raises ValueError whenever the parsed JSON content is
not a dictionary, and when it is a dictionary passing the goal-percentage
check it returns that parsed object unchanged. -/
theorem read_json_validation (v : JValue) (fields : List (String × JValue))
    (hv : v.isDict = false)
    (hc : ∃ d, check_goal_percentage (.obj fields) = .ok d) :
    read_json v = .error .valueError ∧
    read_json (.obj fields) = .ok (.obj fields) := by
  obtain ⟨d, hd⟩ := hc
  constructor
  · unfold read_json
    simp [hv]
  · simp [read_json, JValue.isDict, hd, Bind.bind, Except.bind]

/-- Witness for C8: null input versus a valid goal-percentage object. -/
theorem read_json_validation_witness :
    read_json .null = .error .valueError ∧
    read_json (.obj [("goal_percentage", numObj [("A", 100)])]) =
      .ok (.obj [("goal_percentage", numObj [("A", 100)])]) :=
  read_json_validation .null [("goal_percentage", numObj [("A", 100)])] rfl
    ⟨gData [("A", 100)], by
      show check_goal_percentage (gData [("A", 100)]) = .ok (gData [("A", 100)])
      rw [check_gData, if_pos (by norm_num [sumSnd])]⟩

/-- Claim C9: on a parsed JSON object lacking the goal_percentage key,
read_json fails with a KeyError, which is neither the designated
GoalPercentageError nor the ValueError used for non-object input. -/
theorem read_json_missing_goal_key (fields : List (String × JValue))
    (h : fields.lookup "goal_percentage" = none) :
    read_json (.obj fields) = .error (.keyError "goal_percentage") ∧
    (∀ q : ℚ, (PyErr.keyError "goal_percentage") ≠ .goalPercentageError q) ∧
    (PyErr.keyError "goal_percentage") ≠ .valueError := by
  refine ⟨?_, by intro q; simp, by simp⟩
  have hsub : (JValue.obj fields).subscript "goal_percentage" =
      .error (.keyError "goal_percentage") := by
    simp [JValue.subscript, h]
  simp [read_json, JValue.isDict, check_goal_percentage, hsub, Bind.bind,
    Except.bind]

/-- Witness for C9 at an object holding only a current_value key. -/
theorem read_json_missing_goal_key_witness :
    read_json (.obj [("current_value", .null)]) =
      .error (.keyError "goal_percentage") ∧
    (∀ q : ℚ, (PyErr.keyError "goal_percentage") ≠ .goalPercentageError q) ∧
    (PyErr.keyError "goal_percentage") ≠ .valueError :=
  read_json_missing_goal_key [("current_value", .null)] rfl

/-- Claim C3: whenever the current values sum to a positive total, the
percentages computed by calculate_current_percentage sum to exactly 100 over
exact rational arithmetic. -/
theorem calculate_current_percentage_sum_100 (l : List (String × ℚ))
    (h : 0 < sumSnd l) :
    ∃ res, calculate_current_percentage (mkData l) = .ok res ∧
      sumSnd res = 100 := by
  have hne : sumSnd l ≠ 0 := ne_of_gt h
  refine ⟨_, calc_mkData l hne, ?_⟩
  rw [sumSnd_map_perc, div_self hne, one_mul]

/-- Witness for C3 at a two-asset portfolio with total 4. -/
theorem calculate_current_percentage_sum_100_witness :
    0 < sumSnd [("A", 1), ("B", 3)] ∧
    ∃ res, calculate_current_percentage (mkData [("A", 1), ("B", 3)]) =
        .ok res ∧ sumSnd res = 100 :=
  ⟨by norm_num [sumSnd],
   calculate_current_percentage_sum_100 [("A", 1), ("B", 3)]
     (by norm_num [sumSnd])⟩

/-- Claim C4 counterexample: on an empty current_value mapping the total is
zero, yet calculate_current_percentage succeeds with an empty result instead
of failing, refuting the claim that a zero total always fails. -/
theorem calculate_current_percentage_empty_cex :
    sumSnd [] = 0 ∧ calculate_current_percentage (mkData []) = .ok [] :=
  ⟨rfl, rfl⟩

/-- Claim C4 amended: calculate_current_percentage raises TypeError whenever
the input is not a dictionary, raises ZeroDivisionError whenever the current
values sum to zero and the mapping is nonempty, and on the empty mapping
returns an empty result without failing. -/
theorem calculate_current_percentage_failure_modes :
    (∀ v : JValue, v.isDict = false →
      calculate_current_percentage v = .error .typeError) ∧
    (∀ l : List (String × ℚ), l ≠ [] → sumSnd l = 0 →
      calculate_current_percentage (mkData l) = .error .zeroDivisionError) ∧
    calculate_current_percentage (mkData []) = .ok [] :=
  ⟨calc_not_dict, calc_mkData_zero, rfl⟩

/-- Witness for C4 amended: a null input and a one-asset portfolio with value
zero. -/
theorem calculate_current_percentage_failure_modes_witness :
    calculate_current_percentage .null = .error .typeError ∧
    calculate_current_percentage (mkData [("A", 0)]) =
      .error .zeroDivisionError :=
  ⟨calculate_current_percentage_failure_modes.1 .null rfl,
   calculate_current_percentage_failure_modes.2.1 [("A", 0)] (by simp)
     (by norm_num [sumSnd])⟩

/-- Claim C6: on a mapping with positive total, calculate_current_percentage
maps every asset to exactly value / total * 100. -/
theorem calculate_current_percentage_formula (l : List (String × ℚ))
    (h : 0 < sumSnd l) :
    calculate_current_percentage (mkData l) =
      .ok (l.map (fun p => (p.1, p.2 / sumSnd l * 100))) :=
  calc_mkData l (ne_of_gt h)

/-- Witness for C6 at a two-asset portfolio. -/
theorem calculate_current_percentage_formula_witness :
    calculate_current_percentage (mkData [("A", 1), ("B", 3)]) =
      .ok ([("A", (1 : ℚ)), ("B", 3)].map
        (fun p => (p.1, p.2 / sumSnd [("A", 1), ("B", 3)] * 100))) :=
  calculate_current_percentage_formula [("A", 1), ("B", 3)]
    (by norm_num [sumSnd])

/-- Claim C10: whenever calculate_current_percentage succeeds, the keys of the
result are exactly the keys of the current_value mapping of the input, in the
same order. -/
theorem calculate_current_percentage_keys (data : JValue)
    (res : List (String × ℚ))
    (h : calculate_current_percentage data = .ok res) :
    ∃ cv entries, data.subscript "current_value" = .ok cv ∧
      cv.items = .ok entries ∧
      res.map (fun p => p.1) = entries.map (fun p => p.1) := by
  unfold calculate_current_percentage at h
  by_cases hd : data.isDict = false
  · simp [hd] at h
  · rw [if_neg hd] at h
    cases h1 : data.subscript "current_value" with
    | error e => rw [h1] at h; simp [Bind.bind, Except.bind] at h
    | ok cv =>
      rw [h1] at h
      simp only [Bind.bind, Except.bind] at h
      cases h2 : cv.items with
      | error e => rw [h2] at h; simp at h
      | ok entries =>
        rw [h2] at h
        simp only at h
        cases h3 : sumNums 0 (entries.map (fun p => p.2)) with
        | error e => rw [h3] at h; simp at h
        | ok t =>
          rw [h3] at h
          simp only at h
          exact ⟨cv, entries, rfl, h2, percEntries_keys h⟩

/-- Witness for C10 at a one-asset portfolio. -/
theorem calculate_current_percentage_keys_witness :
    ∃ cv entries,
      (mkData [("A", 1)]).subscript "current_value" = .ok cv ∧
      cv.items = .ok entries ∧
      ([("A", (1 : ℚ))].map
        (fun p => (p.1, p.2 / sumSnd [("A", 1)] * 100))).map (fun p => p.1) =
        entries.map (fun p => p.1) :=
  calculate_current_percentage_keys (mkData [("A", 1)]) _
    (calc_mkData [("A", 1)] (by norm_num [sumSnd]))

lemma firstMaxBy_mem {key : String × ℚ → ℚ} {l : List (String × ℚ)}
    {p : String × ℚ} (h : firstMaxBy key l p) : p ∈ l := by
  obtain ⟨-, pre, post, rfl, -⟩ := h
  exact List.mem_append_right _ (List.mem_cons_self _ _)

/-- Claim C2 counterexample: asset B is present in current_percentages but
absent from goal_percentages, and suggest_action fails with a KeyError
instead of treating the missing goal percentage as 0. -/
theorem suggest_action_missing_key_cex :
    suggest_action [("A", 50), ("B", 50)] [("A", 100)] =
      .error (.keyError "B") := rfl

/-- Claim C2 amended: whenever some asset of current_percentages is absent
from goal_percentages, suggest_action fails with a KeyError naming an asset
that is absent from the goal mapping; it never defaults the goal to 0. -/
theorem suggest_action_missing_key (cur goal : List (String × ℚ))
    (h : ∃ p ∈ cur, goal.lookup p.1 = none) :
    ∃ a, suggest_action cur goal = .error (.keyError a) ∧
      goal.lookup a = none := by
  obtain ⟨a, ha, hal⟩ := computeDiffs_missing h
  exact ⟨a, suggest_action_of_err ha, hal⟩

/-- Witness for C2 amended at the two-asset portfolio missing asset B from the
goal mapping. -/
theorem suggest_action_missing_key_witness :
    ∃ a, suggest_action [("A", (50 : ℚ)), ("B", 50)] [("A", (100 : ℚ))] =
        .error (.keyError a) ∧
      [("A", (100 : ℚ))].lookup a = none :=
  suggest_action_missing_key [("A", 50), ("B", 50)] [("A", 100)]
    ⟨("B", 50), by simp, rfl⟩

/-- Claim C1 counterexample: with differences A: +30 and B: -10 the single
asset of largest absolute difference is A, yet the returned suggestion names
two distinct assets, A on the buy side and B on the sell side, so it does not
report a single asset. -/
theorem suggest_action_two_assets_cex :
    suggest_action [("A", 10), ("B", 50)] [("A", 40), ("B", 40)] =
      .ok ⟨some ("A", 30), some ("B", -10)⟩ ∧
    ActionSuggestion.names ⟨some ("A", 30), some ("B", -10)⟩ = ["A", "B"] ∧
    ("A" : String) ≠ "B" := by
  refine ⟨?_, rfl, by decide⟩
  have h0 : computeDiffs [("A", 10), ("B", 50)] [("A", 40), ("B", 40)] =
      .ok [("A", 40 - 10), ("B", 40 - 50)] := rfl
  have h : computeDiffs [("A", 10), ("B", 50)] [("A", 40), ("B", 40)] =
      .ok [("A", (30 : ℚ)), ("B", -10)] := by
    rw [h0]
    norm_num
  rw [suggest_action_of_diffs h]
  simp only [List.filter]
  norm_num

/-- Claim C1 amended: suggest_action reports up to two assets. The buy side,
when present, is the first-encountered asset with the maximal positive
difference; it is absent exactly when no difference is positive. The sell
side, when present, is the first-encountered asset with the most negative
difference; it is absent exactly when no difference is negative. Consequently
every nonzero difference is dominated in absolute value by a named asset, so
an asset attaining the maximal absolute difference is always named. -/
theorem suggest_action_extreme_assets (cur goal : List (String × ℚ))
    (hnd : (cur.map (fun p => p.1)).Nodup) (s : ActionSuggestion)
    (hs : suggest_action cur goal = .ok s) :
    ∃ diffs, computeDiffs cur goal = .ok diffs ∧
      (∀ p, s.buy = some p →
        0 < p.2 ∧ firstMaxBy (fun x => x.2)
          (diffs.filter (fun x => decide (0 < x.2))) p) ∧
      (s.buy = none → ∀ q ∈ diffs, ¬ 0 < q.2) ∧
      (∀ p, s.sell = some p →
        p.2 < 0 ∧ firstMaxBy (fun x => -x.2)
          (diffs.filter (fun x => decide (x.2 < 0))) p) ∧
      (s.sell = none → ∀ q ∈ diffs, ¬ q.2 < 0) ∧
      (∀ q ∈ diffs, q.2 ≠ 0 →
        ∃ p, (s.buy = some p ∨ s.sell = some p) ∧ |q.2| ≤ |p.2|) := by
  cases hd : computeDiffs cur goal with
  | error e =>
    rw [suggest_action_of_err hd] at hs
    cases hs
  | ok diffs =>
    rw [suggest_action_of_diffs hd] at hs
    have hXY : ActionSuggestion.mk
        (((diffs.filter (fun x => decide (0 < x.2))).mergeSort
            (fun a b => decide (b.2 ≤ a.2))).head?)
        (((diffs.filter (fun x => decide (x.2 < 0))).mergeSort
            (fun a b => decide (a.2 ≤ b.2))).head?) = s := by
      injection hs
    have hbuyeq : s.buy =
        ((diffs.filter (fun x => decide (0 < x.2))).mergeSort
          (fun a b => decide (b.2 ≤ a.2))).head? := by
      rw [← hXY]
    have hselleq : s.sell =
        ((diffs.filter (fun x => decide (x.2 < 0))).mergeSort
          (fun a b => decide (a.2 ≤ b.2))).head? := by
      rw [← hXY]
    have hnddiffs : diffs.Nodup := by
      have hm : (diffs.map (fun p => p.1)).Nodup := by
        rw [computeDiffs_keys hd]
        exact hnd
      exact List.Nodup.of_map _ hm
    have hbuy_some : ∀ p, s.buy = some p →
        0 < p.2 ∧ firstMaxBy (fun x => x.2)
          (diffs.filter (fun x => decide (0 < x.2))) p := by
      intro p hp
      rw [hbuyeq] at hp
      have hfm := head_mergeSort_firstMax (fun x => x.2)
        (diffs.filter (fun x => decide (0 < x.2)))
        (hnddiffs.filter _) p hp
      have hpos : 0 < p.2 := by
        have := (List.mem_filter.mp (firstMaxBy_mem hfm)).2
        simpa using this
      exact ⟨hpos, hfm⟩
    have hbuy_none : s.buy = none → ∀ q ∈ diffs, ¬ 0 < q.2 := by
      intro hb q hq hlt
      rw [hbuyeq] at hb
      have hfe := head_mergeSort_none _ _ hb
      have : q ∈ diffs.filter (fun x => decide (0 < x.2)) :=
        List.mem_filter.mpr ⟨hq, by simpa using hlt⟩
      rw [hfe] at this
      cases this
    have hsell_some : ∀ p, s.sell = some p →
        p.2 < 0 ∧ firstMaxBy (fun x => -x.2)
          (diffs.filter (fun x => decide (x.2 < 0))) p := by
      intro p hp
      rw [hselleq, sell_comparator_eq] at hp
      have hfm := head_mergeSort_firstMax (fun x => -x.2)
        (diffs.filter (fun x => decide (x.2 < 0)))
        (hnddiffs.filter _) p hp
      have hneg : p.2 < 0 := by
        have := (List.mem_filter.mp (firstMaxBy_mem hfm)).2
        simpa using this
      exact ⟨hneg, hfm⟩
    have hsell_none : s.sell = none → ∀ q ∈ diffs, ¬ q.2 < 0 := by
      intro hb q hq hlt
      rw [hselleq] at hb
      have hfe := head_mergeSort_none _ _ hb
      have : q ∈ diffs.filter (fun x => decide (x.2 < 0)) :=
        List.mem_filter.mpr ⟨hq, by simpa using hlt⟩
      rw [hfe] at this
      cases this
    refine ⟨diffs, rfl, hbuy_some, hbuy_none, hsell_some, hsell_none, ?_⟩
    intro q hq hq0
    rcases hq0.lt_or_lt with hlt | hgt
    · cases hY : s.sell with
      | none => exact absurd hlt (hsell_none hY q hq)
      | some p =>
        obtain ⟨hp0, hfm⟩ := hsell_some p hY
        have hqf : q ∈ diffs.filter (fun x => decide (x.2 < 0)) :=
          List.mem_filter.mpr ⟨hq, by simpa using hlt⟩
        have hle := hfm.1 q hqf
        refine ⟨p, Or.inr rfl, ?_⟩
        rw [abs_of_neg hlt, abs_of_neg hp0]
        simpa using hle
    · cases hX : s.buy with
      | none => exact absurd hgt (hbuy_none hX q hq)
      | some p =>
        obtain ⟨hp0, hfm⟩ := hbuy_some p hX
        have hqf : q ∈ diffs.filter (fun x => decide (0 < x.2)) :=
          List.mem_filter.mpr ⟨hq, by simpa using hgt⟩
        have hle := hfm.1 q hqf
        refine ⟨p, Or.inl rfl, ?_⟩
        rw [abs_of_pos hgt, abs_of_pos hp0]
        simpa using hle

/-- Witness for C1 amended: at the concrete input with differences A: +30 and
B: -10, the buy side of the suggestion is the first maximal positive
difference. -/
theorem suggest_action_extreme_assets_witness :
    ∃ diffs, computeDiffs [("A", (10 : ℚ)), ("B", 50)]
        [("A", (40 : ℚ)), ("B", 40)] = .ok diffs ∧
      (0 < (30 : ℚ) ∧ firstMaxBy (fun x => x.2)
        (diffs.filter (fun x => decide (0 < x.2))) ("A", 30)) := by
  have h0 : computeDiffs [("A", 10), ("B", 50)] [("A", 40), ("B", 40)] =
      .ok [("A", 40 - 10), ("B", 40 - 50)] := rfl
  have h : computeDiffs [("A", 10), ("B", 50)] [("A", 40), ("B", 40)] =
      .ok [("A", (30 : ℚ)), ("B", -10)] := by
    rw [h0]
    norm_num
  have hsugg : suggest_action [("A", 10), ("B", 50)] [("A", 40), ("B", 40)] =
      .ok ⟨some ("A", 30), some ("B", -10)⟩ := by
    rw [suggest_action_of_diffs h]
    simp only [List.filter]
    norm_num
  obtain ⟨diffs, hdiffs, hbuy, -, -, -, -⟩ :=
    suggest_action_extreme_assets [("A", 10), ("B", 50)]
      [("A", 40), ("B", 40)] (by simp)
      ⟨some ("A", 30), some ("B", -10)⟩ hsugg
  exact ⟨diffs, hdiffs, hbuy ("A", 30) rfl⟩

end InvestAssist
